import Mathlib

/-!
Verification of the pyqtfile atom-tree engine (src/qtfile.py).

The embedding models the byte source/sink as a list of byte values with a
cursor (Python file-like objects: read/tell/seek), and translates the engine
from the source:

* `read_struct` / `Atom.read_header`  — the header codec (qtfile.py 263-282,
  419-435), with `struct` formats replaced by explicit byte counts and
  big-endian decoding;
* `parseAtom` / `readLoop`            — the body of `Atom.read`'s while loop
  (qtfile.py 178-261): one iteration's try-block, dispatch, recursion into
  containers, partial-read reconciliation and terminating-null detection;
* `Atom.write` and its pieces         — `write`, `write_header`, `write_data`,
  `write_end` and `PassthroughAtom.write` (qtfile.py 289-324, 379-384);
* `movieRead` / `movieFind`           — `QuickTimeFile.read` / `find`
  (qtfile.py 91-110), including the remove-while-iterating loop.

Recursion in the reader is bounded by an explicit fuel parameter (one unit
per loop iteration / nesting step); all theorems are stated for every fuel,
about one unfolding, or at a fuel large enough for the concrete input.
-/

namespace QtFile

/-- Model of a Python file-like object: a byte string plus a cursor.
Bytes are modelled as natural numbers. -/
structure ByteStream where
  data : List Nat
  pos : Nat
deriving Repr, DecidableEq

/-- Python `stream.tell()`. -/
def ByteStream.tell (s : ByteStream) : Nat := s.pos

/-- Python `stream.seek(n)` (absolute). -/
def ByteStream.seek (s : ByteStream) (n : Nat) : ByteStream := { s with pos := n }

/-- Python `stream.read(n)`: returns up to `n` bytes from the cursor and
advances the cursor by the number of bytes actually returned (a read at or
past end-of-data returns fewer bytes, possibly none). -/
def ByteStream.read (s : ByteStream) (n : Nat) : List Nat × ByteStream :=
  let buf := (s.data.drop s.pos).take n
  (buf, { s with pos := s.pos + buf.length })

/-- Python `stream.write(bs)` on a file: overwrite at the cursor, extending
the data as needed (a sparse seek past the end is zero-filled, as for OS
files). -/
def ByteStream.write (s : ByteStream) (bs : List Nat) : ByteStream :=
  let d := s.data ++ List.replicate (s.pos - s.data.length) 0
  { data := d.take s.pos ++ bs ++ d.drop (s.pos + bs.length),
    pos := s.pos + bs.length }

/-- Big-endian value of a byte string (how `struct.unpack` reads the
fixed-width unsigned formats `>L` and `>Q` used by the source). -/
def beNat (l : List Nat) : Nat := l.foldl (fun a b => a * 256 + b) 0

/-- The two failure modes of `read_struct` (qtfile.py 419-435, 438-451):
`QuickTimeEOF` when zero bytes were available, `QuickTimeParseError` for a
short or malformed read. -/
inductive ReadErr where
  | eof
  | parseError
deriving Repr, DecidableEq

/-- read_struct (qtfile.py 419-435), specialised to reading `n` raw bytes
(`struct.calcsize` of the format): raises `QuickTimeEOF` when zero bytes come
back, `QuickTimeParseError` when fewer than requested come back.
Unpacking itself cannot fail on the fixed-width formats the engine uses. -/
def read_struct (s : ByteStream) (n : Nat) : Except (ReadErr × ByteStream) (List Nat × ByteStream) :=
  let r := s.read n
  if r.1.length = 0 then .error (.eof, r.2)
  else if r.1.length ≠ n then .error (.parseError, r.2)
  else .ok r

/-- Atom.read_header (qtfile.py 263-282): read the 8-byte `>L4s` header
(4-byte big-endian size, 4-byte type tag); an empty tag is a parse error;
size 1 means an 8-byte big-endian extended size follows and is the true size
(`extended = true`); size 0 is an unsupported parse error.
Returns `(size, kind, extended, stream)`. -/
def read_header (s : ByteStream) : Except (ReadErr × ByteStream) (Nat × List Nat × Bool × ByteStream) := do
  let (buf, s) ← read_struct s 8
  let size := beNat (buf.take 4)
  let kind := buf.drop 4
  if kind.isEmpty then
    .error (.parseError, s)
  else if size = 1 then do
    let (ext, s) ← read_struct s 8
    .ok (beNat ext, kind, true, s)
  else if size = 0 then
    .error (.parseError, s)
  else
    .ok (size, kind, false, s)

/-- A registered atom implementation: the class-level attributes the engine
reads (qtfile.py 118-131). `field_defs` keeps each field's name and the byte
width of its binary format (`struct.calcsize(format)`). -/
inductive AtomClass : Type where
  | mk : List (List Nat) → Bool → List (String × Nat) → Bool → Option AtomClass → AtomClass

def AtomClass.supported_types : AtomClass → List (List Nat)
  | .mk st _ _ _ _ => st

def AtomClass.container : AtomClass → Bool
  | .mk _ c _ _ _ => c

def AtomClass.field_defs : AtomClass → List (String × Nat)
  | .mk _ _ fd _ _ => fd

def AtomClass.trailing_null : AtomClass → Bool
  | .mk _ _ _ tn _ => tn

def AtomClass.force_child_class : AtomClass → Option AtomClass
  | .mk _ _ _ _ fc => fc

/-- Atom.supports_type (qtfile.py 172-175). -/
def AtomClass.supports_type (c : AtomClass) (kind : List Nat) : Bool :=
  c.supported_types.contains kind

/-- An instantiated atom.

`node cls kind fields children extended_header terminating_null` is an atom
of a registered class (its fields parsed into an association list in schema
order); `passthrough kind offset size extended_header` is a
PassthroughAtom (qtfile.py 368-392) recording the source offset and declared
size captured at parse time (the bound source itself is passed to `write`).
The `parent` back-reference is not stored: it is only used by the reader for
the terminating-null detection, which the reader models directly. -/
inductive Atom : Type where
  | node : AtomClass → List Nat → List (String × Nat) → List Atom → Bool → Bool → Atom
  | passthrough : List Nat → Nat → Nat → Bool → Atom

def Atom.kind : Atom → List Nat
  | .node _ k _ _ _ _ => k
  | .passthrough k _ _ _ => k

def Atom.fields : Atom → List (String × Nat)
  | .node _ _ f _ _ _ => f
  | .passthrough _ _ _ _ => []

def Atom.children : Atom → List Atom
  | .node _ _ _ cs _ _ => cs
  | .passthrough _ _ _ _ => []

def Atom.extended_header : Atom → Bool
  | .node _ _ _ _ e _ => e
  | .passthrough _ _ _ e => e

def Atom.terminating_null : Atom → Bool
  | .node _ _ _ _ _ t => t
  | .passthrough _ _ _ _ => false

mutual
/-- Atom.size (qtfile.py 158-170): header (8) + extended header (8 if set) +
schema field widths + children sizes + 4 for a terminating null.
PassthroughAtom.size (qtfile.py 389-392) is the fixed captured size. -/
def Atom.size : Atom → Nat
  | .node cls _ _ cs ext tn =>
      8 + (if ext then 8 else 0) + (cls.field_defs.map (fun p => p.2)).sum
        + Atom.sizeList cs + (if tn then 4 else 0)
  | .passthrough _ _ sz _ => sz

/-- Sum of the sizes of a list of child atoms. -/
def Atom.sizeList : List Atom → Nat
  | [] => 0
  | a :: rest => Atom.size a + Atom.sizeList rest
end

/-- Atom.read_data (qtfile.py 284-287): read each schema field in order via
`read_struct`, recording its (unwrapped) value under the field's name. -/
def read_data : List (String × Nat) → ByteStream →
    Except (ReadErr × ByteStream) (List (String × Nat) × ByteStream)
  | [], s => .ok ([], s)
  | (key, w) :: rest, s => do
      let (buf, s) ← read_struct s w
      let (fs, s) ← read_data rest s
      .ok ((key, beNat buf) :: fs, s)

/-- The type dispatcher inside Atom.read (qtfile.py 205-211): a forced class
bypasses the registry; otherwise the first registered class whose
`supports_type` accepts the tag wins. -/
def dispatch (classes : List AtomClass) (force : Option AtomClass) (kind : List Nat) :
    Option AtomClass :=
  match force with
  | some c => some c
  | none => classes.find? (fun c => c.supports_type kind)

/-- The cursor reconciliation after each atom (qtfile.py 245-247): if the
position is not exactly `offset + size`, seek there. -/
def reconcile (offset sz : Nat) (s : ByteStream) : ByteStream :=
  if s.tell ≠ offset + sz then s.seek (offset + sz) else s

/-- The terminating-null detection (qtfile.py 249-254): if the parent is an
Atom with `trailing_null` and exactly 4 bytes remain before `end`, consume
them (whatever they contain) and report that `parent.terminating_null` must
be set. `ptn` is `parent != None and isinstance(parent, Atom) and
parent.trailing_null`. -/
def nullCheck (end_ : Int) (ptn : Bool) (s : ByteStream) : Bool × ByteStream :=
  if ptn && (end_ - (s.tell : Int) == 4) then (true, (s.read 4).2) else (false, s)

/-- The while loop of Atom.read (qtfile.py 193-261), with the loop body's
try-block inlined exactly as in the source: read the header, dispatch a
handler; a handler parses its fields and, if a container, recurses into the
byte range `[current position, offset + size)` with its `force_child_class`
and its own `trailing_null` as the children's parent context; no handler
yields a PassthroughAtom bound to `(offset, size)` with no payload bytes
read; the atom records the `extended` flag from the header (the child read
at qtfile.py 219 passes `start = stream.tell()`, so its entry seek is a
no-op and the loop is entered directly).

`end_ = 0` reads to exhaustion, `end_ = -1` stops after one atom, a positive
`end_` is an exclusive bound on atom start offsets. A header/fields failure
(EOF or parse error) breaks the loop, returning the atoms accumulated so far
(`acc`) and the stream where the failed read left it. On success the cursor
is reconciled to `offset + size`, the terminating-null check may consume 4
bytes and set the parent flag (`tn`), and the atom is appended. `fuel`
bounds the number of iterations and the nesting depth; every theorem is
stated for all fuel or at fuel visibly large enough for its input. -/
def readLoop : Nat → List AtomClass → Option AtomClass → Int → Bool → ByteStream →
    List Atom → Bool → List Atom × Bool × ByteStream
  | 0, _, _, _, _, s, acc, tn => (acc, tn, s)
  | fuel + 1, classes, force, end_, ptn, s, acc, tn =>
    if end_ ≤ 0 ∨ (s.tell : Int) < end_ then
      let offset := s.tell
      let tried : Except (ReadErr × ByteStream) (Atom × Nat × ByteStream) :=
        match read_header s with
        | .error e => .error e
        | .ok (size, kind, ext, s) =>
          match dispatch classes force kind with
          | none => .ok (.passthrough kind offset size ext, size, s)
          | some cls =>
            match read_data cls.field_defs s with
            | .error e => .error e
            | .ok (fields, s) =>
              if cls.container then
                let r := readLoop fuel classes cls.force_child_class
                           ((offset + size : Nat) : Int) cls.trailing_null s [] false
                .ok (.node cls kind fields r.1 ext r.2.1, size, r.2.2)
              else
                .ok (.node cls kind fields [] ext false, size, s)
      match tried with
      | .error (_, serr) => (acc, tn, serr)
      | .ok (atom, sz, s1) =>
        let s2 := reconcile offset sz s1
        let f3 := nullCheck end_ ptn s2
        let acc' := acc ++ [atom]
        let tn' := tn || f3.1
        if end_ = -1 then (acc', tn', f3.2)
        else readLoop fuel classes force end_ ptn f3.2 acc' tn'
    else (acc, tn, s)

/-- One iteration's try-block of Atom.read (qtfile.py 199-240) as a
standalone function, for stating per-atom properties: it is exactly the
`tried` computation inside `readLoop` (theorem `readLoop_succ` below states
the factorization). Returns the parsed atom, its declared size, and the
stream after it. -/
def parseAtom (fuel : Nat) (classes : List AtomClass) (force : Option AtomClass)
    (s : ByteStream) : Except (ReadErr × ByteStream) (Atom × Nat × ByteStream) :=
  let offset := s.tell
  match read_header s with
  | .error e => .error e
  | .ok (size, kind, ext, s) =>
    match dispatch classes force kind with
    | none => .ok (.passthrough kind offset size ext, size, s)
    | some cls =>
      match read_data cls.field_defs s with
      | .error e => .error e
      | .ok (fields, s) =>
        if cls.container then
          let r := readLoop fuel classes cls.force_child_class
                     ((offset + size : Nat) : Int) cls.trailing_null s [] false
          .ok (.node cls kind fields r.1 ext r.2.1, size, r.2.2)
        else
          .ok (.node cls kind fields [] ext false, size, s)

/-- One unfolding of the reader loop: a successor-fuel `readLoop` is the
loop guard, then the try-block (`parseAtom`), then reconciliation,
terminating-null check, append, and the `end_ = -1` early stop. -/
theorem readLoop_succ (fuel : Nat) (classes : List AtomClass) (force : Option AtomClass)
    (end_ : Int) (ptn : Bool) (s : ByteStream) (acc : List Atom) (tn : Bool) :
    readLoop (fuel + 1) classes force end_ ptn s acc tn =
      if end_ ≤ 0 ∨ (s.tell : Int) < end_ then
        match parseAtom fuel classes force s with
        | .error (_, serr) => (acc, tn, serr)
        | .ok (atom, sz, s1) =>
          let s2 := reconcile s.tell sz s1
          let f3 := nullCheck end_ ptn s2
          if end_ = -1 then (acc ++ [atom], tn || f3.1, f3.2)
          else readLoop fuel classes force end_ ptn f3.2 (acc ++ [atom]) (tn || f3.1)
      else (acc, tn, s) := rfl

/-- Atom.read (qtfile.py 177-261): seek to `start` when given and different
from the current position, then run the loop with an empty accumulator.
Returns the atoms, whether the parent's `terminating_null` must be set, and
the final stream. -/
def Atom.read (fuel : Nat) (s : ByteStream) (start : Option Nat) (end_ : Int)
    (ptn : Bool) (classes : List AtomClass) (force : Option AtomClass) :
    List Atom × Bool × ByteStream :=
  let s := match start with
    | some st => if s.tell ≠ st then s.seek st else s
    | none => s
  readLoop fuel classes force end_ ptn s [] false

/-- struct.pack on a fixed-width big-endian unsigned format of `w` bytes:
range-checked (Python raises `struct.error` for an out-of-range value),
emitting the big-endian byte string otherwise. -/
def packBE (w : Nat) (v : Nat) : Option (List Nat) :=
  if v < 2 ^ (8 * w) then
    some ((List.range w).reverse.map (fun i => v / 256 ^ i % 256))
  else
    none

/-- struct.pack of the `4s` tag component: pad with zero bytes or truncate
to exactly 4 bytes. -/
def pack4s (kind : List Nat) : List Nat :=
  (kind ++ List.replicate 4 0).take 4

/-- struct.pack(">L4s", size, kind): 4-byte big-endian size (range-checked)
followed by the 4-byte tag. -/
def pack_L4s (sz : Nat) (kind : List Nat) : Option (List Nat) :=
  (packBE 4 sz).map (fun b => b ++ pack4s kind)

/-- Atom.write_header (qtfile.py 304-312): if `extended_header` is set or the
computed size exceeds `2**32`, write size-field 1 and the type tag followed
by the 8-byte true size; otherwise write the size directly in the 4-byte
field. The pack is `none` when a size is out of range for its field
(Python raises `struct.error`). -/
def write_header (a : Atom) (sink : ByteStream) : Option ByteStream :=
  if a.extended_header || decide (a.size > 2 ^ 32) then
    (pack_L4s 1 a.kind).bind fun hdr =>
      (packBE 8 a.size).map fun ext =>
        (sink.write hdr).write ext
  else
    (pack_L4s a.size a.kind).map fun hdr => sink.write hdr

/-- Atom.write_data (qtfile.py 314-318): pack each schema field's current
value in schema order. `none` when a field is missing from the mapping
(Python `KeyError`) or out of range for its format (`struct.error`).
The base class ignores the `recursive` parameter and writes no children. -/
def write_data : List (String × Nat) → List (String × Nat) → ByteStream → Option ByteStream
  | [], _, sink => some sink
  | (key, w) :: rest, fields, sink =>
    match fields.lookup key with
    | none => none
    | some v => (packBE w v).bind fun bs => write_data rest fields (sink.write bs)

/-- Atom.write_end (qtfile.py 320-324): emit the 4-byte zero terminating
marker when `terminating_null` is set. -/
def write_end (a : Atom) (sink : ByteStream) : ByteStream :=
  if a.terminating_null then sink.write [0, 0, 0, 0] else sink

/-- Atom.write (qtfile.py 289-302) and PassthroughAtom.write (qtfile.py
379-384). A node writes header, schema fields, and (when `recursive`) the
terminating null; the write-length check against `size` is a log-only
warning and has no effect. A passthrough atom ignores all of that and
`recursive`: it seeks the bound source to its recorded offset and copies
exactly its recorded length to the sink. -/
def Atom.write (source : ByteStream) (a : Atom) (sink : ByteStream) (recursive : Bool) :
    Option ByteStream :=
  match a with
  | .passthrough _ off sz _ =>
      some (sink.write (((source.seek off).read sz).1))
  | .node cls _ flds _ _ _ =>
      (write_header a sink).bind fun sink =>
        (write_data cls.field_defs flds sink).bind fun sink =>
          if recursive then some (write_end a sink) else some sink

/-- Atom.free (qtfile.py 336-339): rename the atom's type tag to "free"
(bytes 102 114 101 101); nothing else changes. -/
def Atom.free : Atom → Atom
  | .node cls _ f cs e t => .node cls [102, 114, 101, 101] f cs e t
  | .passthrough _ off sz e => .passthrough [102, 114, 101, 101] off sz e

mutual
/-- Atom.find (qtfile.py 326-334) with `recursive = true`: walk the
children; collect a child when its tag is in `types`; then collect its own
matches recursively. -/
def Atom.find : List (List Nat) → Atom → List Atom
  | types, .node _ _ _ cs _ _ => Atom.findChildren types cs
  | _, .passthrough _ _ _ _ => []

/-- The `for child in self` loop body of Atom.find. -/
def Atom.findChildren : List (List Nat) → List Atom → List Atom
  | _, [] => []
  | types, c :: rest =>
      (if c.kind ∈ types then [c] else []) ++ Atom.find types c
        ++ Atom.findChildren types rest
end

/-- QuickTimeFile.find (qtfile.py 103-110): for each root, collect it when
its tag is in `types`, then extend with the root's recursive find. -/
def movieFind : List (List Nat) → List Atom → List Atom
  | _, [] => []
  | types, a :: rest =>
      (if a.kind ∈ types then [a] else []) ++ Atom.find types a
        ++ movieFind types rest

mutual
/-- Depth-first preorder of an atom: itself, then the preorder of its
children. Specification-side definition used to state what `find` returns. -/
def preorder : Atom → List Atom
  | .node cls k f cs e t => .node cls k f cs e t :: preorderForest cs
  | .passthrough k off sz e => [.passthrough k off sz e]

/-- Depth-first preorder of a forest of atoms. -/
def preorderForest : List Atom → List Atom
  | [] => []
  | a :: rest => preorder a ++ preorderForest rest
end

mutual
/-- Python list equality, as `list.remove` compares atoms: an Atom is a
`list` subclass, so `==` compares the children element-wise, recursively
(instance attributes such as the tag take no part in `list.__eq__`). An
atom with no children — any passthrough atom in particular — compares equal
to every other childless atom. -/
def atomEq : Atom → Atom → Bool
  | .node _ _ _ cs _ _, b => atomListEq cs b.children
  | .passthrough _ _ _ _, b => b.children.isEmpty

/-- Element-wise Python equality of two atom lists. -/
def atomListEq : List Atom → List Atom → Bool
  | [], ys => ys.isEmpty
  | x :: xs, y :: ys => atomEq x y && atomListEq xs ys
  | _ :: _, [] => false
end

/-- Python `list.remove(x)` (used by QuickTimeFile.read): delete the first
element comparing equal to `x`. -/
def listRemove (l : List Atom) (x : Atom) : List Atom :=
  l.eraseP (fun y => atomEq y x)

/-- The root-clearing loop of QuickTimeFile.read (qtfile.py 94-95):
`for a in self: self.remove(a)`. The Python list iterator keeps a plain
index that it advances after every yield, while `remove` shrinks the list,
so each iteration reads the element at the next index of the already
shortened list. Each iteration removes exactly one element, so the loop
runs at most `l.length` times; `fuel` is initialised to that. -/
def clearLoop : Nat → List Atom → Nat → List Atom
  | 0, l, _ => l
  | fuel + 1, l, i =>
    if h : i < l.length then
      clearLoop fuel (listRemove l (l.get ⟨i, h⟩)) (i + 1)
    else l

/-- QuickTimeFile.read (qtfile.py 91-97): run the remove-while-iterating
clearing loop over the current roots, then append every atom the tree
reader returns for `start = stream.tell()`, `end = 0`, with the movie (not
an Atom, so no trailing-null context) as parent. -/
def movieRead (fuel : Nat) (roots : List Atom) (classes : List AtomClass)
    (s : ByteStream) : List Atom × ByteStream :=
  let cleared := clearLoop roots.length roots 0
  let r := Atom.read fuel s (some s.tell) 0 false classes none
  (cleared ++ r.1, r.2.2)

/-- QuickTimeFile.write (qtfile.py 99-101): write every root atom in order,
recursively. `source` backs any passthrough atoms. -/
def movieWrite (source : ByteStream) (roots : List Atom) (sink : ByteStream) :
    Option ByteStream :=
  match roots with
  | [] => some sink
  | a :: rest => (Atom.write source a sink true).bind (movieWrite source rest)

/-! Concrete fixtures shared by several theorems below. -/

/-- A 16-byte atom: declared size 16, tag "abcd", 8 payload bytes. -/
def buf16 : List Nat := [0, 0, 0, 16, 97, 98, 99, 100, 1, 2, 3, 4, 5, 6, 7, 8]

/-- A container class for tag "cont" with `trailing_null` enabled. -/
def contCls : AtomClass := .mk [[99, 111, 110, 116]] true [] true none

/-- A container class for tag "moov" without trailing null. -/
def moovCls : AtomClass := .mk [[109, 111, 111, 118]] true [] false none

/-- `buf16` followed by 3 bytes of garbage (too short for another header). -/
def buf19 : List Nat := buf16 ++ [0, 0, 0]

/-- A 28-byte "cont" container (declared size 28) holding one 16-byte
"data" atom, with the 4 bytes before its declared end non-zero. -/
def contBuf : List Nat :=
  [0, 0, 0, 28, 99, 111, 110, 116]
    ++ [0, 0, 0, 16, 100, 97, 116, 97, 9, 9, 9, 9, 9, 9, 9, 9]
    ++ [1, 2, 3, 4]

/-- A 12-byte "cont" container whose declared body is 4 bytes — too short
for a child header, so the child level hits a structural parse error. -/
def contErrBuf : List Nat := [0, 0, 0, 12, 99, 111, 110, 116, 0, 0, 0, 0]

/-- The byte layout of the spec's extended-size example, in the order the
spec states it: size-field 1, then the 8-byte extended size 20, then the
4-byte tag "abcd", then 8 payload bytes. -/
def specOrderBuf : List Nat :=
  [0, 0, 0, 1] ++ [0, 0, 0, 0, 0, 0, 0, 20] ++ [97, 98, 99, 100]
    ++ [1, 2, 3, 4, 5, 6, 7, 8]

/-- The same example with the tag and the extended size in the order the
code reads them: size-field 1, tag "abcd", 8-byte extended size 20, then 8
payload bytes. -/
def amendedBuf : List Nat :=
  [0, 0, 0, 1] ++ [97, 98, 99, 100] ++ [0, 0, 0, 0, 0, 0, 0, 20]
    ++ [1, 2, 3, 4, 5, 6, 7, 8]

/-! Helper lemmas about the loop's post-processing steps. -/

/-- The reconciliation step always leaves the cursor at `offset + size`,
whether or not the atom's implementation consumed its declared bytes. -/
theorem reconcile_tell (offset sz : Nat) (s : ByteStream) :
    (reconcile offset sz s).tell = offset + sz := by
  unfold reconcile ByteStream.tell ByteStream.seek
  by_cases h : s.pos = offset + sz
  · simp [h]
  · simp [h]

/-- With a non-positive `end_` (read-to-exhaustion or single-atom mode) the
terminating-null check can never fire: `end_ - tell = 4` is impossible. -/
theorem nullCheck_nonpos (e : Int) (ptn : Bool) (s : ByteStream) (he : e ≤ 0) :
    nullCheck e ptn s = (false, s) := by
  unfold nullCheck
  have hb : (e - (s.tell : Int) == 4) = false := by
    rw [beq_eq_false_iff_ne]
    have : (0 : Int) ≤ (s.tell : Int) := Int.ofNat_nonneg _
    omega
  simp [hb]

/-- Without a trailing-null parent context the check is a no-op. -/
theorem nullCheck_not_ptn (e : Int) (s : ByteStream) :
    nullCheck e false s = (false, s) := by
  simp [nullCheck]

/-- A tag supported by no registered class dispatches to no handler. -/
theorem dispatch_none (classes : List AtomClass) (kind : List Nat)
    (h : ∀ c ∈ classes, c.supports_type kind = false) :
    dispatch classes none kind = none := by
  simp only [dispatch]
  exact List.find?_eq_none.mpr (by intro c hc; simp [h c hc])

/-- C1: for an atom whose type tag matches no implementation in the
registry, reading it constructs a passthrough atom bound to the source, the
atom's start offset and its declared size, and writing that atom without
modification produces output byte-identical to the input span
[offset, offset + declared_size) of the source. -/
theorem c1_passthrough_roundtrip (fuel : Nat) (src : List Nat) (pos : Nat)
    (classes : List AtomClass) (sz : Nat) (kind : List Nat) (ext : Bool)
    (s1 : ByteStream)
    (hh : read_header ⟨src, pos⟩ = .ok (sz, kind, ext, s1))
    (hnone : ∀ c ∈ classes, c.supports_type kind = false) :
    (readLoop (fuel + 1) classes none (-1) false ⟨src, pos⟩ [] false).1
      = [.passthrough kind pos sz ext]
    ∧ (Atom.write ⟨src, 0⟩ (.passthrough kind pos sz ext) ⟨[], 0⟩ true).map
        ByteStream.data
      = some ((src.drop pos).take sz) := by
  constructor
  · rw [readLoop_succ, if_pos (Or.inl (by norm_num))]
    simp only [parseAtom, hh, dispatch_none classes kind hnone]
    simp [nullCheck_not_ptn, ByteStream.tell]
  · simp [Atom.write, ByteStream.write, ByteStream.seek, ByteStream.read,
      ByteStream.data, List.drop_nil]

/-- C1 witness: a 16-byte atom with tag "abcd" and an empty registry. -/
theorem c1_witness :
    (readLoop 2 [] none (-1) false ⟨buf16, 0⟩ [] false).1
      = [.passthrough [97, 98, 99, 100] 0 16 false]
    ∧ (Atom.write ⟨buf16, 0⟩ (.passthrough [97, 98, 99, 100] 0 16 false) ⟨[], 0⟩
        true).map ByteStream.data
      = some ((buf16.drop 0).take 16) :=
  c1_passthrough_roundtrip 1 buf16 0 [] 16 [97, 98, 99, 100] false ⟨buf16, 8⟩ rfl
    (by intro c hc; simp at hc)

/-- C2 (code bug): an atom with `extended_header` unset whose computed size
is exactly `2 ^ 32` does not fit the 4-byte size field, yet `write_header`'s
condition is the strict `size > 2 ** 32`, so the 4-byte branch is taken and
the range-checked pack of the size fails (Python raises `struct.error`)
instead of emitting the extended header the specification requires. The
failing input is a container holding one passthrough atom of size
`2 ^ 32 - 8`. -/
theorem c2_write_header_boundary :
    Atom.size (.node moovCls [109, 111, 111, 118] []
        [.passthrough [109, 100, 97, 116] 8 (2 ^ 32 - 8) false] false false)
      = 2 ^ 32
    ∧ Atom.extended_header (.node moovCls [109, 111, 111, 118] []
        [.passthrough [109, 100, 97, 116] 8 (2 ^ 32 - 8) false] false false)
      = false
    ∧ write_header (.node moovCls [109, 111, 111, 118] []
        [.passthrough [109, 100, 97, 116] 8 (2 ^ 32 - 8) false] false false)
        ⟨[], 0⟩
      = none :=
  ⟨rfl, rfl, rfl⟩

/-- C3 (code bug): `QuickTimeFile.read` clears the current roots with
`for a in self: self.remove(a)`, removing from the list being iterated; the
iterator's index then skips every other element, so with two prior roots the
second survives and the freshly read atoms are appended after it —
contradicting the claim that no previously held root atom remains. -/
theorem c3_read_leaves_stale_roots :
    (movieRead 3
        [Atom.passthrough [97, 97, 97, 97] 0 1 false,
         Atom.passthrough [98, 98, 98, 98] 0 2 false]
        [] ⟨[], 0⟩).1
      = [Atom.passthrough [98, 98, 98, 98] 0 2 false] :=
  rfl

/-- C4: the tree reader's `end` parameter has three behaviours. A positive
`end` is an exclusive upper bound on atom start offsets: the loop returns at
once when the position is at or past it, before parsing anything there.
`end = -1` parses one atom, appends it, and stops. `end = 0` never stops at
a position bound: when an atom parses the loop continues behind it, and it
terminates only when a read fails (source exhausted or a parse error). For
both non-positive modes the terminating-null check cannot fire. -/
theorem c4_end_semantics (fuel : Nat) (classes : List AtomClass)
    (force : Option AtomClass) (ptn : Bool) (s : ByteStream) (acc : List Atom)
    (tn : Bool) :
    (∀ e : Int, 0 < e → e ≤ (s.tell : Int) →
      readLoop (fuel + 1) classes force e ptn s acc tn = (acc, tn, s))
    ∧ (∀ atom sz s1, parseAtom fuel classes force s = .ok (atom, sz, s1) →
        readLoop (fuel + 1) classes force (-1) ptn s acc tn
          = (acc ++ [atom], tn, reconcile s.tell sz s1))
    ∧ (∀ atom sz s1, parseAtom fuel classes force s = .ok (atom, sz, s1) →
        readLoop (fuel + 1) classes force 0 ptn s acc tn
          = readLoop fuel classes force 0 ptn (reconcile s.tell sz s1)
              (acc ++ [atom]) tn)
    ∧ (∀ err s1, parseAtom fuel classes force s = .error (err, s1) →
        readLoop (fuel + 1) classes force 0 ptn s acc tn = (acc, tn, s1)) := by
  refine ⟨?_, ?_, ?_, ?_⟩
  · intro e he hle
    have h : ¬((e : Int) ≤ 0 ∨ (s.tell : Int) < e) := by push_neg; omega
    rw [readLoop_succ, if_neg h]
  · intro atom sz s1 hp
    rw [readLoop_succ, if_pos (Or.inl (by norm_num))]
    simp [hp, nullCheck_nonpos (-1) ptn (reconcile s.tell sz s1) (by norm_num)]
  · intro atom sz s1 hp
    rw [readLoop_succ, if_pos (Or.inl (by norm_num))]
    simp [hp, nullCheck_nonpos 0 ptn (reconcile s.tell sz s1) (by norm_num)]
  · intro err s1 hp
    rw [readLoop_succ, if_pos (Or.inl (by norm_num)), hp]

/-- C4 witness: on the 16-byte `buf16`, a positive bound at the current
offset returns immediately; `end = -1` yields exactly the one atom;
`end = 0` continues past a parsed atom and stops at exhaustion. -/
theorem c4_witness :
    readLoop 3 [] none 16 false ⟨buf16, 16⟩ [] false = ([], false, ⟨buf16, 16⟩)
    ∧ readLoop 3 [] none (-1) false ⟨buf16, 0⟩ [] false
        = ([.passthrough [97, 98, 99, 100] 0 16 false], false, ⟨buf16, 16⟩)
    ∧ readLoop 3 [] none 0 false ⟨buf16, 0⟩ [] false
        = readLoop 2 [] none 0 false ⟨buf16, 16⟩
            [.passthrough [97, 98, 99, 100] 0 16 false] false
    ∧ readLoop 3 [] none 0 false ⟨buf16, 16⟩
        [.passthrough [97, 98, 99, 100] 0 16 false] false
        = ([.passthrough [97, 98, 99, 100] 0 16 false], false, ⟨buf16, 16⟩) := by
  refine ⟨?_, ?_, ?_, ?_⟩
  · exact (c4_end_semantics 2 [] none false ⟨buf16, 16⟩ [] false).1 16
      (by norm_num) (by decide)
  · exact ((c4_end_semantics 2 [] none false ⟨buf16, 0⟩ [] false).2.1
      (.passthrough [97, 98, 99, 100] 0 16 false) 16 ⟨buf16, 8⟩ rfl).trans rfl
  · exact ((c4_end_semantics 2 [] none false ⟨buf16, 0⟩ [] false).2.2.1
      (.passthrough [97, 98, 99, 100] 0 16 false) 16 ⟨buf16, 8⟩ rfl).trans rfl
  · exact (c4_end_semantics 2 [] none false ⟨buf16, 16⟩
      [.passthrough [97, 98, 99, 100] 0 16 false] false).2.2.2 .eof ⟨buf16, 16⟩ rfl

/-- C5: a clean end-of-source (zero bytes at a read) or a structural parse
error (size 0, empty tag, short fixed-field read) makes the loop stop at
the current recursion level and return the atoms already accumulated there;
and a container's parse succeeds whatever its child level did, so neither
condition propagates to the caller of the enclosing read. -/
theorem c5_error_containment (fuel : Nat) (classes : List AtomClass)
    (force : Option AtomClass) (e : Int) (ptn : Bool) (s : ByteStream)
    (acc : List Atom) (tn : Bool) :
    (∀ err s1, parseAtom fuel classes force s = .error (err, s1) →
        (e ≤ 0 ∨ (s.tell : Int) < e) →
        readLoop (fuel + 1) classes force e ptn s acc tn = (acc, tn, s1))
    ∧ (∀ sz kind ext s1 cls fields s2,
        read_header s = .ok (sz, kind, ext, s1) →
        dispatch classes force kind = some cls →
        read_data cls.field_defs s1 = .ok (fields, s2) →
        cls.container = true →
        parseAtom fuel classes force s =
          .ok (.node cls kind fields
                 (readLoop fuel classes cls.force_child_class
                    ((s.tell + sz : Nat) : Int) cls.trailing_null s2 [] false).1
                 ext
                 (readLoop fuel classes cls.force_child_class
                    ((s.tell + sz : Nat) : Int) cls.trailing_null s2 [] false).2.1,
               sz,
               (readLoop fuel classes cls.force_child_class
                  ((s.tell + sz : Nat) : Int) cls.trailing_null s2 [] false).2.2)) := by
  constructor
  · intro err s1 hp hcond
    rw [readLoop_succ, if_pos hcond, hp]
  · intro sz kind ext s1 cls fields s2 hh hd hrd hcont
    simp only [parseAtom, hh, hd, hrd, hcont]
    simp

/-- C5 witness: on `buf19` the trailing 3 garbage bytes stop the loop with
the one good atom retained; on `contErrBuf` the child level's parse error is
absorbed and the container atom still parses (with no children). -/
theorem c5_witness :
    readLoop 3 [] none 0 false ⟨buf19, 16⟩
        [.passthrough [97, 98, 99, 100] 0 16 false] false
      = ([.passthrough [97, 98, 99, 100] 0 16 false], false, ⟨buf19, 19⟩)
    ∧ parseAtom 2 [contCls] none ⟨contErrBuf, 0⟩
      = .ok (.node contCls [99, 111, 110, 116] [] [] false false, 12,
             ⟨contErrBuf, 12⟩) := by
  constructor
  · exact (c5_error_containment 2 [] none 0 false ⟨buf19, 16⟩
      [.passthrough [97, 98, 99, 100] 0 16 false] false).1 .parseError
      ⟨buf19, 19⟩ rfl (Or.inl (by norm_num))
  · exact ((c5_error_containment 2 [contCls] none 0 false ⟨contErrBuf, 0⟩ []
      false).2 12 [99, 111, 110, 116] false ⟨contErrBuf, 8⟩ contCls []
      ⟨contErrBuf, 8⟩ rfl rfl rfl rfl).trans rfl

/-- C7: after each successfully parsed atom and before the terminating-null
check, the cursor is reconciled to the atom's start offset plus its declared
size (`reconcile` always lands there, seeking whenever the position
differs), the loop routes every successful parse through that
reconciliation, and with no trailing-null parent context the null check
changes nothing — so the next sibling is parsed starting at the correct
offset even when an implementation consumed fewer bytes than declared. -/
theorem c7_cursor_invariant (fuel : Nat) (classes : List AtomClass)
    (force : Option AtomClass) (e : Int) (ptn : Bool) (s : ByteStream)
    (acc : List Atom) (tn : Bool) :
    (∀ offset sz s1, (reconcile offset sz s1).tell = offset + sz)
    ∧ (∀ atom sz s1, parseAtom fuel classes force s = .ok (atom, sz, s1) →
        (e ≤ 0 ∨ (s.tell : Int) < e) →
        readLoop (fuel + 1) classes force e ptn s acc tn
          = (if e = -1 then
               (acc ++ [atom],
                tn || (nullCheck e ptn (reconcile s.tell sz s1)).1,
                (nullCheck e ptn (reconcile s.tell sz s1)).2)
             else
               readLoop fuel classes force e ptn
                 (nullCheck e ptn (reconcile s.tell sz s1)).2 (acc ++ [atom])
                 (tn || (nullCheck e ptn (reconcile s.tell sz s1)).1)))
    ∧ (∀ s2, nullCheck e false s2 = (false, s2)) := by
  refine ⟨reconcile_tell, ?_, fun s2 => nullCheck_not_ptn e s2⟩
  intro atom sz s1 hp hcond
  rw [readLoop_succ, if_pos hcond, hp]

/-- C7 witness: inside `contBuf`'s container the child atom consumes only
its 8 header bytes, yet the cursor is reconciled to offset 8 + size 16 = 24
and the loop proceeds from there (the trailing-null check then consumes the
final 4 bytes). -/
theorem c7_witness :
    (reconcile 8 16 ⟨contBuf, 16⟩).tell = 8 + 16
    ∧ readLoop 2 [] none 28 true ⟨contBuf, 8⟩ [] false
        = readLoop 1 [] none 28 true ⟨contBuf, 28⟩
            [.passthrough [100, 97, 116, 97] 8 16 false] true
    ∧ nullCheck 28 false ⟨contBuf, 24⟩ = (false, ⟨contBuf, 24⟩) := by
  refine ⟨(c7_cursor_invariant 1 [] none 28 true ⟨contBuf, 8⟩ [] false).1 8 16
      ⟨contBuf, 16⟩, ?_,
    (c7_cursor_invariant 1 [] none 28 false ⟨contBuf, 24⟩ [] false).2.2
      ⟨contBuf, 24⟩⟩
  exact ((c7_cursor_invariant 1 [] none 28 true ⟨contBuf, 8⟩ [] false).2.1
    (.passthrough [100, 97, 116, 97] 8 16 false) 16 ⟨contBuf, 16⟩ rfl
    (Or.inr (by decide))).trans rfl

/-- C8: `free()` renames the atom's type tag to "free" and changes nothing
else: computed size, fields, children, and both header flags are
untouched. -/
theorem c8_free_nondestructive (a : Atom) :
    (Atom.free a).kind = [102, 114, 101, 101]
    ∧ (Atom.free a).size = a.size
    ∧ (Atom.free a).fields = a.fields
    ∧ (Atom.free a).children = a.children
    ∧ (Atom.free a).extended_header = a.extended_header
    ∧ (Atom.free a).terminating_null = a.terminating_null := by
  cases a <;> exact ⟨rfl, rfl, rfl, rfl, rfl, rfl⟩

/-- C6 counterexample: a buffer laid out in the order the spec's example
states — size-field 1, then the 8-byte extended size 20, then the 4-byte
tag, then payload — does not parse as an atom of size 20: the code reads
the 4-byte type tag before the extended size (`>L4s`, then `>Q`), so the
tag comes out as the four zero bytes of the extended size's high half and
the size as 20 * 2^32 + 0x61626364 = 87533183844. -/
theorem c6_counterexample :
    (readLoop 5 [] none 0 false ⟨specOrderBuf, 0⟩ [] false).1
      = [.passthrough [0, 0, 0, 0] 0 87533183844 true]
    ∧ (87533183844 : Nat) ≠ 20 :=
  ⟨rfl, by norm_num⟩

/-- C6 amended: when the 4-byte size field equals 1, the 8-byte big-endian
extended size that follows the 4-byte type tag is read and becomes the
atom's true size with `extended_header = true`; a buffer containing a
declared-size-1 atom, then the 4-byte type tag, then an 8-byte extended
size of 20, then 8 bytes of payload parses as one atom with
`extended_header = true` and size 20. -/
theorem c6_extended_header_amended :
    (∀ (k0 k1 k2 k3 e0 e1 e2 e3 e4 e5 e6 e7 : Nat) (rest : List Nat),
      read_header
          ⟨[0, 0, 0, 1, k0, k1, k2, k3, e0, e1, e2, e3, e4, e5, e6, e7] ++ rest, 0⟩
        = .ok (beNat [e0, e1, e2, e3, e4, e5, e6, e7], [k0, k1, k2, k3], true,
               ⟨[0, 0, 0, 1, k0, k1, k2, k3, e0, e1, e2, e3, e4, e5, e6, e7]
                  ++ rest, 16⟩))
    ∧ (readLoop 5 [] none 0 false ⟨amendedBuf, 0⟩ [] false).1
        = [.passthrough [97, 98, 99, 100] 0 20 true] :=
  ⟨fun _ _ _ _ _ _ _ _ _ _ _ _ _ => rfl, rfl⟩

/-! Lemmas relating `find` to a filtered preorder traversal. -/

mutual
/-- Atom.find collects exactly the matching atoms of the children's
depth-first preorder. -/
theorem find_eq_filter (types : List (List Nat)) (a : Atom) :
    Atom.find types a
      = (preorderForest a.children).filter (fun x => decide (x.kind ∈ types)) := by
  cases a with
  | node cls k f cs e t =>
      exact findChildren_eq_filter types cs
  | passthrough k off sz e =>
      rfl

/-- The find loop over a sibling list collects exactly the matching atoms
of the list's depth-first preorder. -/
theorem findChildren_eq_filter (types : List (List Nat)) (l : List Atom) :
    Atom.findChildren types l
      = (preorderForest l).filter (fun x => decide (x.kind ∈ types)) := by
  cases l with
  | nil => rfl
  | cons c rest =>
      have hc := find_eq_filter types c
      have hr := findChildren_eq_filter types rest
      cases c with
      | node cls k f cs e t =>
          simp only [Atom.findChildren, preorderForest, preorder,
            List.filter_append, List.filter_cons, hc, hr, Atom.children]
          by_cases h : Atom.kind (.node cls k f cs e t) ∈ types <;>
            simp [h, List.append_assoc]
      | passthrough k off sz e =>
          simp only [Atom.findChildren, preorderForest, preorder,
            List.filter_append, List.filter_cons, hc, hr, Atom.children]
          by_cases h : Atom.kind (.passthrough k off sz e) ∈ types <;>
            simp [h, List.append_assoc]
end

/-- C9: the movie-level find returns exactly the atoms, at any depth, whose
type tag is in the given set, in depth-first preorder — descending into
every atom's children whether or not that atom matched. -/
theorem c9_find_complete (types : List (List Nat)) (roots : List Atom) :
    movieFind types roots
      = (preorderForest roots).filter (fun x => decide (x.kind ∈ types)) := by
  induction roots with
  | nil => rfl
  | cons a rest ih =>
      have ha := find_eq_filter types a
      cases a with
      | node cls k f cs e t =>
          simp only [movieFind, preorderForest, preorder, List.filter_append,
            List.filter_cons, ha, ih, Atom.children]
          by_cases h : Atom.kind (.node cls k f cs e t) ∈ types <;>
            simp [h, List.append_assoc]
      | passthrough k off sz e =>
          simp only [movieFind, preorderForest, preorder, List.filter_append,
            List.filter_cons, ha, ih, Atom.children]
          by_cases h : Atom.kind (.passthrough k off sz e) ∈ types <;>
            simp [h, List.append_assoc]

/-- C10: the terminating-null detection never inspects the values of the 4
remaining bytes — for every values of the container's last 4 bytes, the
child-level loop consumes them and reports the parent's `terminating_null`
as set (first conjunct, quantified over the bytes); the concrete full parse
of `contBuf` (whose final 4 bytes are 1 2 3 4) yields the container with
`terminating_null = true`; on write the marker is always emitted as 4 zero
bytes; and consequently writing the parsed tree back produces output that
is not byte-identical to `contBuf` (the non-zero bytes are replaced by
zeros). -/
theorem c10_terminating_null (b0 b1 b2 b3 : Nat) :
    readLoop 2 [contCls] none 28 true
        ⟨[0, 0, 0, 28, 99, 111, 110, 116,
          0, 0, 0, 16, 100, 97, 116, 97, 9, 9, 9, 9, 9, 9, 9, 9,
          b0, b1, b2, b3], 8⟩ [] false
      = ([.passthrough [100, 97, 116, 97] 8 16 false], true,
         ⟨[0, 0, 0, 28, 99, 111, 110, 116,
           0, 0, 0, 16, 100, 97, 116, 97, 9, 9, 9, 9, 9, 9, 9, 9,
           b0, b1, b2, b3], 28⟩)
    ∧ (readLoop 3 [contCls] none 0 false ⟨contBuf, 0⟩ [] false).1
        = [.node contCls [99, 111, 110, 116] []
             [.passthrough [100, 97, 116, 97] 8 16 false] false true]
    ∧ (∀ sink : ByteStream,
        write_end (.node contCls [99, 111, 110, 116] []
            [.passthrough [100, 97, 116, 97] 8 16 false] false true) sink
          = sink.write [0, 0, 0, 0])
    ∧ (movieWrite ⟨contBuf, 0⟩
         [.node contCls [99, 111, 110, 116] []
            [.passthrough [100, 97, 116, 97] 8 16 false] false true]
         ⟨[], 0⟩).map ByteStream.data
        = some [0, 0, 0, 28, 99, 111, 110, 116, 0, 0, 0, 0]
    ∧ [0, 0, 0, 28, 99, 111, 110, 116, 0, 0, 0, 0] ≠ contBuf :=
  ⟨rfl, rfl, fun _ => rfl, rfl, by decide⟩

end QtFile
